import Mathlib

/-!
Verification of the rule-to-predicate compiler of `src/drip/models.py`
(class `QuerySetRule`): duration parsing, value parsing (`filter_kwargs`),
count-aggregate aliasing (`annotated_field_name` and the annotation step),
rule application (`apply`) and dry-run validation (`clean`).

Conventions of the embedding:
- Strings are manipulated through their character lists (`String.data`),
  mirroring Python string operations (`lstrip`, `replace`, `startswith`,
  `endswith`, `rpartition`, substring containment) character by character.
- Instants (Python `datetime`) are integers counting microseconds since
  1970-01-01T00:00:00; calendar dates (Python `date`) are integers counting
  days since 1970-01-01.  `datetime + timedelta` is integer addition of
  microseconds; `date + timedelta` adds the timedelta's normalized day count
  (floor of microseconds / 86400000000), as Python does.
- Durations (Python `timedelta`) are integers of microseconds.
- A Python function that may raise is embedded as `Except PyErr`; the two
  exception types the analysed code can raise are `ValueError` (raised
  explicitly in `parse_duration`) and `TypeError` (raised implicitly by
  `datetime + None` / `date + None` when `parse_duration` returns `None`).
-/

set_option maxRecDepth 8192

/-- Python character test for the digit characters 0-9. -/
def isDigitChar (c : Char) : Bool := c.isDigit

/-- Split a character list into its maximal leading run of digits and the rest. -/
def spanDigits (l : List Char) : List Char × List Char :=
  (l.takeWhile isDigitChar, l.dropWhile isDigitChar)

/-- Numeric value of a digit string (most significant digit first). -/
def digitsVal (l : List Char) : Nat :=
  l.foldl (fun a c => a * 10 + (c.toNat - 48)) 0

/-- Worker for `listStartsWith`, recursing on the pattern (first argument) so
that the test reduces even when the searched list is a variable and the
pattern is exhausted. -/
def listStartsWithAux : List Char → List Char → Bool
  | [] => fun _ => true
  | q :: qs => fun s =>
    match s with
    | [] => false
    | a :: as => if a = q then listStartsWithAux qs as else false

/-- Python `s.startswith(p)` on character lists: `listStartsWith s p`. -/
def listStartsWith (s p : List Char) : Bool := listStartsWithAux p s

/-- Python `s.endswith(p)` on character lists. -/
def listEndsWith (l p : List Char) : Bool :=
  listStartsWith l.reverse p.reverse

/-- Python `c in s` for a single character. -/
def listContains : List Char → Char → Bool
  | [], _ => false
  | c :: cs, x => if c = x then true else listContains cs x

/-- Python `value.lstrip(chr(43))`: drop every leading plus character. -/
def lstripPlus : List Char → List Char
  | [] => []
  | c :: cs => if c = '+' then lstripPlus cs else c :: cs

/-- Fueled worker for `replaceAll`; the fuel is an upper bound on the number of
steps (each step consumes at least one character), so `replaceAll` below passes
the input length.  When the fuel runs out the remaining input is returned
unchanged, which never happens for the fuel chosen by `replaceAll`. -/
def replaceAllAux (pat repl : List Char) : Nat → List Char → List Char
  | _, [] => []
  | 0, s => s
  | fuel + 1, c :: cs =>
    if listStartsWith (c :: cs) pat then
      repl ++ replaceAllAux pat repl fuel (List.drop (pat.length - 1) cs)
    else
      c :: replaceAllAux pat repl fuel cs

/-- Python `s.replace(pat, repl)`: replace every non-overlapping occurrence of
`pat` in `s`, scanning left to right (used with non-empty `pat` only). -/
def replaceAll (pat repl s : List Char) : List Char :=
  replaceAllAux pat repl s.length s

/-- Python `s.rpartition(sep)`, restricted to the two components the source
uses: `some (before, after)` splits at the LAST occurrence of `sep`; `none`
when `sep` does not occur. -/
def splitAtLast (sep : List Char) : List Char → Option (List Char × List Char)
  | [] => none
  | c :: cs =>
    match splitAtLast sep cs with
    | some (b, a) => some (c :: b, a)
    | none =>
      if listStartsWith (c :: cs) sep then some ([], (c :: cs).drop sep.length)
      else none

/-- Does `pat` occur as a contiguous substring of the list? -/
def hasSubstr (pat : List Char) : List Char → Bool
  | [] => listStartsWith [] pat
  | c :: cs => listStartsWith (c :: cs) pat || hasSubstr pat cs

/-- Microseconds of a clock component `hours:minutes:seconds` plus a
microsecond remainder. -/
def clockMicro (h m s mi : Nat) : Int :=
  Int.ofNat ((h * 3600 + m * 60 + s) * 1000000 + mi)

/-- Modelled from the spec: tail of the standard-form clock after the seconds
digits — either nothing, or a dot/comma followed by 1 to 12 digits of which
the first at most 6 are kept and right-padded with zeros to microseconds
(Django pads the captured group with `ljust(6, zero)` and drops up to six
further digits). -/
def parseMicroTail : List Char → Option Nat
  | [] => some 0
  | c :: rest =>
    if c = '.' ∨ c = ',' then
      let (ds, r) := spanDigits rest
      if ds = [] ∨ 12 < ds.length ∨ r ≠ [] then none
      else
        let cap := ds.take 6
        some (digitsVal (cap ++ List.replicate (6 - cap.length) '0'))
    else none

/-- Modelled from the spec: the optional days component of the standard
duration form — an optionally negated digit run, a space, then optionally the
literal word `days, ` or `day, ` (comma and trailing space included).  Returns
the signed day count and the remaining input. -/
def parseStdDays (l : List Char) : Option (Int × List Char) :=
  let p : Bool × List Char :=
    match l with
    | '-' :: rest => (true, rest)
    | _ => (false, l)
  let (ds, r1) := spanDigits p.2
  if ds = [] then none
  else
    match r1 with
    | ' ' :: r2 =>
      let days : Int := if p.1 then -(Int.ofNat (digitsVal ds)) else Int.ofNat (digitsVal ds)
      if listStartsWith r2 "days, ".data then some (days, r2.drop 6)
      else if listStartsWith r2 "day, ".data then some (days, r2.drop 5)
      else some (days, r2)
    | _ => none

/-- Modelled from the spec: the clock component of the standard duration form —
an optional minus sign, then `S`, `M:S` or `H:M:S` with unbounded digit runs,
then the optional fractional tail of `parseMicroTail`.  Returns signed
microseconds. -/
def parseStdClock (l : List Char) : Option Int :=
  let p : Int × List Char :=
    match l with
    | '-' :: rest => (-1, rest)
    | _ => (1, l)
  let (d1, r1) := spanDigits p.2
  if d1 = [] then none
  else
    match r1 with
    | ':' :: r2 =>
      let (d2, r3) := spanDigits r2
      if d2 = [] then none
      else
        match r3 with
        | ':' :: r4 =>
          let (d3, r5) := spanDigits r4
          if d3 = [] then none
          else
            match parseMicroTail r5 with
            | some mi => some (p.1 * clockMicro (digitsVal d1) (digitsVal d2) (digitsVal d3) mi)
            | none => none
        | _ =>
          match parseMicroTail r3 with
          | some mi => some (p.1 * clockMicro 0 (digitsVal d1) (digitsVal d2) mi)
          | none => none
    | _ =>
      match parseMicroTail r1 with
      | some mi => some (p.1 * clockMicro 0 0 (digitsVal d1) mi)
      | none => none

/-- Modelled from the spec: the standard `N days, H:M:S` duration form
(days component optional; the clock side requires at least a seconds run).
The sign of the optional days prefix and the sign of the clock component are
independent, the clock sign applying only to the clock part. -/
def std_duration (l : List Char) : Option Int :=
  match parseStdDays l with
  | some (days, rest) =>
    match parseStdClock rest with
    | some c => some (days * 86400000000 + c)
    | none => none
  | none => parseStdClock l

/-- Modelled from the spec: the optional days component of the interval form —
an optionally negated digit run, a space, the literal word `days` or `day`,
then an optional single space. -/
def parsePgDays (l : List Char) : Option (Int × List Char) :=
  let p : Bool × List Char :=
    match l with
    | '-' :: rest => (true, rest)
    | _ => (false, l)
  let (ds, r1) := spanDigits p.2
  if ds = [] then none
  else
    match r1 with
    | ' ' :: r2 =>
      let days : Int := if p.1 then -(Int.ofNat (digitsVal ds)) else Int.ofNat (digitsVal ds)
      if listStartsWith r2 "days".data then
        let r3 := r2.drop 4
        some (days, match r3 with | ' ' :: r4 => r4 | _ => r3)
      else if listStartsWith r2 "day".data then
        let r3 := r2.drop 3
        some (days, match r3 with | ' ' :: r4 => r4 | _ => r3)
      else none
    | _ => none

/-- Modelled from the spec: the clock component of the interval form — empty,
or an optional sign, an hours digit run, and exactly-two-digit minutes and
seconds, with an optional dot followed by 1 to 6 fractional digits
(right-padded with zeros to microseconds). -/
def parsePgClock (l : List Char) : Option Int :=
  match l with
  | [] => some 0
  | _ =>
    let p : Int × List Char :=
      match l with
      | '-' :: rest => (-1, rest)
      | '+' :: rest => (1, rest)
      | _ => (1, l)
    let (hs, r1) := spanDigits p.2
    if hs = [] then none
    else
      match r1 with
      | ':' :: r2 =>
        let (ms, r3) := spanDigits r2
        if ms.length = 2 then
          match r3 with
          | ':' :: r4 =>
            let (ss, r5) := spanDigits r4
            if ss.length = 2 then
              match r5 with
              | [] => some (p.1 * clockMicro (digitsVal hs) (digitsVal ms) (digitsVal ss) 0)
              | '.' :: r6 =>
                let (us, r7) := spanDigits r6
                if us = [] ∨ 6 < us.length ∨ r7 ≠ [] then none
                else
                  some (p.1 * clockMicro (digitsVal hs) (digitsVal ms) (digitsVal ss)
                    (digitsVal (us ++ List.replicate (6 - us.length) '0')))
              | _ => none
            else none
          | _ => none
        else none
      | _ => none

/-- Modelled from the spec: the `N days H:MM:SS` interval form in which either
side may be present alone — in particular a bare day count such as `3 days`
is accepted, and the empty string parses as the zero duration (both optional
components absent). -/
def postgres_interval (l : List Char) : Option Int :=
  match parsePgDays l with
  | some (days, rest) =>
    match parsePgClock rest with
    | some c => some (days * 86400000000 + c)
    | none => none
  | none => parsePgClock l

/-- Modelled from the spec: the duration parser of the external store layer
(`django.utils.dateparse.parse_duration`, an external dependency of
`src/drip/models.py`), following the signed-duration grammar of the spec:
the conventional `N days, HH:MM:SS` form, the days component optional and
either side allowed alone, the empty string denoting the zero duration.
It tries the standard form first and falls back to the interval form; the
ISO-8601 `P...` form is not modelled (no value in this development uses it).
Returns `none` when the string matches neither form. -/
def django_parse_duration (l : List Char) : Option Int :=
  match std_duration l with
  | some d => some d
  | none => postgres_interval l

/-- The two Python exception kinds the analysed code can raise: the explicit
`ValueError` of `parse_duration`, and the `TypeError` that `datetime + None`
or `date + None` raises when `parse_duration` returns `None`. -/
inductive PyErr where
  | valueError (msg : String)
  | typeError (msg : String)
deriving DecidableEq

/-- Python `type(e).__name__` for the modelled exceptions. -/
def PyErr.errorName : PyErr → String
  | .valueError _ => "ValueError"
  | .typeError _ => "TypeError"

/-- Python `str(e)` for the modelled exceptions. -/
def PyErr.message : PyErr → String
  | .valueError m => m
  | .typeError m => m

/-- The body of `QuerySetRule.parse_duration` after the `lstrip` of leading
plus characters (`src/drip/models.py` lines 151-158): try the literal string;
on failure, when the string has no comma, retry with `, 0` appended and raise
`ValueError` when that fails too; when the string has a comma, fall through
and return the `None` of the failed attempt. -/
def parse_duration_attempts (value : List Char) : Except PyErr (Option Int) :=
  match django_parse_duration value with
  | some duration => Except.ok (some duration)
  | none =>
    if listContains value ',' then Except.ok none
    else
      match django_parse_duration (value ++ ", 0".data) with
      | some duration => Except.ok (some duration)
      | none => Except.error (PyErr.valueError (String.mk ("Could not parse ".data ++ value)))

/-- `QuerySetRule.parse_duration` (`src/drip/models.py` lines 149-158):
strip every leading plus character, then run the two parse attempts.
`Except.ok (some d)` is a returned duration, `Except.ok none` is a returned
Python `None`, `Except.error` a raised `ValueError`. -/
def QuerySetRule.parse_duration (value : String) : Except PyErr (Option Int) :=
  parse_duration_attempts (lstripPlus value.data)

/-- The four behavioural fields of the `QuerySetRule` model
(`src/drip/models.py` lines 104-116); the bookkeeping fields (timestamps and
the parent campaign key) play no role in rule compilation and are omitted. -/
structure QuerySetRule where
  method_type : String
  field_name : String
  lookup_type : String
  field_value : String
deriving DecidableEq

/-- A value a row field can hold in the modelled store. -/
inductive RowVal where
  | int (i : Int)
  | str (s : String)
  | bool (b : Bool)
  | dt (t : Int)
  | date (d : Int)
deriving DecidableEq

/-- A record of the modelled store: a field-name/value association list. -/
abbrev Row := List (String × RowVal)

/-- An aggregate request attached to a collection by `annotate`; the analysed
code only ever requests `Count(relation, distinct=True)`. -/
inductive Agg where
  | countDistinct (rel : String)
deriving DecidableEq

/-- Modelled from the spec: the Queryable collection abstraction of spec
section 6 — a list of rows plus the aggregate aliases attached so far. -/
structure QS where
  rows : List Row
  annotations : List (String × Agg)
deriving DecidableEq

/-- Modelled from the spec: `annotate` binds an alias to an aggregate request;
re-binding an existing alias overwrites it in place (as the external store
does for a re-used aggregate alias), so re-annotating is not an error. -/
def setAssoc (k : String) (v : Agg) : List (String × Agg) → List (String × Agg)
  | [] => [(k, v)]
  | (k1, v1) :: rest => if k1 = k then (k, v) :: rest else (k1, v1) :: setAssoc k v rest

/-- The compiled right-hand side of a predicate: a literal string, an instant,
a calendar date, a deferred same-row field reference (Python `models.F`), or a
boolean. -/
inductive FieldValue where
  | str (s : String)
  | dt (t : Int)
  | date (d : Int)
  | f (name : String)
  | bool (b : Bool)
deriving DecidableEq

/-- Python `int(s)` on the strings the store coerces: an optional minus sign
followed by digits. -/
def parseIntStr (l : List Char) : Option Int :=
  let p : Bool × List Char :=
    match l with
    | '-' :: rest => (true, rest)
    | _ => (false, l)
  let (ds, r) := spanDigits p.2
  if ds = [] ∨ r ≠ [] then none
  else some (if p.1 then -(Int.ofNat (digitsVal ds)) else Int.ofNat (digitsVal ds))

/-- Modelled from the spec: the store's numeric view of a row value — integers
directly, numeric strings coerced (spec section 4.1, passthrough scalars
"understood by the underlying store's comparison machinery"). -/
def RowVal.asInt : RowVal → Option Int
  | .int i => some i
  | .str s => parseIntStr s.data
  | _ => none

/-- Compare two row values numerically when both have a numeric view. -/
def intCmp (f : Int → Int → Bool) (x target : RowVal) : Bool :=
  match x.asInt, target.asInt with
  | some a, some b => f a b
  | _, _ => false

/-- Modelled from the spec: the store's evaluation of one lookup operator on a
row value `x` against a target value, restricted to the operators the claims
exercise — `exact` (with numeric coercion) and the four orderings. -/
def evalLookup (lk : String) (x target : RowVal) : Bool :=
  if lk = "exact" then
    match x.asInt, target.asInt with
    | some a, some b => decide (a = b)
    | _, _ => decide (x = target)
  else if lk = "gt" then intCmp (fun a b => decide (b < a)) x target
  else if lk = "gte" then intCmp (fun a b => decide (b ≤ a)) x target
  else if lk = "lt" then intCmp (fun a b => decide (a < b)) x target
  else if lk = "lte" then intCmp (fun a b => decide (a ≤ b)) x target
  else false

/-- Field access on a row. -/
def lookupRow (row : Row) (field : String) : Option RowVal :=
  match row with
  | [] => none
  | (k, v) :: rest => if k = field then some v else lookupRow rest field

/-- Modelled from the spec: resolution of the compiled target value against a
row — a deferred `F` reference reads the row's own field of that name, every
other value denotes itself. -/
def resolveTarget (row : Row) : FieldValue → Option RowVal
  | .f n => lookupRow row n
  | .str s => some (.str s)
  | .dt t => some (.dt t)
  | .date d => some (.date d)
  | .bool b => some (.bool b)

/-- Modelled from the spec: whether a row satisfies the single-entry predicate
`key = target`, where `key` is the composite `field__lookup` name built by
`filter_kwargs`; the store splits it at the last double underscore. -/
def rowMatches (row : Row) (key : String) (target : FieldValue) : Bool :=
  match splitAtLast "__".data key.data with
  | none => false
  | some (fieldPath, lk) =>
    match lookupRow row (String.mk fieldPath), resolveTarget row target with
    | some x, some t => evalLookup (String.mk lk) x t
    | _, _ => false

/-- Modelled from the spec: `Queryable.filter` — keep the rows satisfying the
predicate, leaving the attached aliases untouched. -/
def QS.filter (qs : QS) (kw : String × FieldValue) : QS :=
  { qs with rows := qs.rows.filter (fun row => rowMatches row kw.1 kw.2) }

/-- Modelled from the spec: `Queryable.exclude` — keep the rows NOT satisfying
the predicate. -/
def QS.exclude (qs : QS) (kw : String × FieldValue) : QS :=
  { qs with rows := qs.rows.filter (fun row => !rowMatches row kw.1 kw.2) }

/-- `QuerySetRule.annotated_field_name` (`src/drip/models.py` lines 133-140):
when the field name ends with the count marker, take everything before the
last double underscore (Python `rpartition`), collapse its double underscores
to single ones, and prefix `num_`; otherwise the field name is unchanged. -/
def QuerySetRule.annotated_field_name (r : QuerySetRule) : String :=
  let field_name := r.field_name
  if listEndsWith field_name.data "__count".data then
    match splitAtLast "__".data field_name.data with
    | some (agg, _) => String.mk ("num_".data ++ replaceAll "__".data "_".data agg)
    | none => String.mk "num_".data
  else field_name

/-- The annotation step of the source, method `apply_any_annotation` of
`QuerySetRule` (`src/drip/models.py` lines 142-147): for a count-marker field
name, bind the alias `annotated_field_name` to a distinct count over the
relation path before the marker; otherwise return the collection unchanged. -/
def QuerySetRule.apply_any_annot (r : QuerySetRule) (qs : QS) : QS :=
  if listEndsWith r.field_name.data "__count".data then
    let field_name := r.annotated_field_name
    let agg : String :=
      match splitAtLast "__".data r.field_name.data with
      | some (a, _) => String.mk a
      | none => ""
    { qs with annotations := setAssoc field_name (Agg.countDistinct agg) qs.annotations }
  else qs

/-- The value-parsing half of `QuerySetRule.filter_kwargs`
(`src/drip/models.py` lines 164-183), a helper split out of the embedding of
`filter_kwargs` for proof convenience: the `now`/`today` branches (an if/elif
in the source), then the three independent ifs on the original raw value for
`F_` references and the two boolean literals. -/
def QuerySetRule.filter_value (r : QuerySetRule) (now : Int) : Except PyErr FieldValue :=
  let base : Except PyErr FieldValue :=
    if listStartsWith r.field_value.data "now".data then
      match QuerySetRule.parse_duration (String.mk (replaceAll "now".data [] r.field_value.data)) with
      | Except.error e => Except.error e
      | Except.ok none =>
        Except.error (PyErr.typeError "unsupported operand type(s) for +: datetime and NoneType")
      | Except.ok (some d) => Except.ok (FieldValue.dt (now + d))
    else if listStartsWith r.field_value.data "today".data then
      match QuerySetRule.parse_duration (String.mk (replaceAll "today".data [] r.field_value.data)) with
      | Except.error e => Except.error e
      | Except.ok none =>
        Except.error (PyErr.typeError "unsupported operand type(s) for +: date and NoneType")
      | Except.ok (some d) =>
        Except.ok (FieldValue.date (Int.fdiv now 86400000000 + Int.fdiv d 86400000000))
    else Except.ok (FieldValue.str r.field_value)
  match base with
  | Except.error e => Except.error e
  | Except.ok fv1 =>
    let fv2 :=
      if listStartsWith r.field_value.data "F_".data then
        FieldValue.f (String.mk (replaceAll "F_".data [] r.field_value.data))
      else fv1
    let fv3 := if r.field_value = "True" then FieldValue.bool true else fv2
    let fv4 := if r.field_value = "False" then FieldValue.bool false else fv3
    Except.ok fv4

/-- `QuerySetRule.filter_kwargs` (`src/drip/models.py` lines 160-187): the
composite key is the annotated field name joined to the lookup with a double
underscore, and the value is `filter_value`; the `qs` argument is unused, as
in the source. -/
def QuerySetRule.filter_kwargs (r : QuerySetRule) (qs : QS) (now : Int) :
    Except PyErr (String × FieldValue) :=
  let field_name := r.annotated_field_name
  let field_name := field_name ++ "__" ++ r.lookup_type
  match r.filter_value now with
  | Except.error e => Except.error e
  | Except.ok fv => Except.ok (field_name, fv)

/-- `QuerySetRule.apply` (`src/drip/models.py` lines 189-200): build the
kwargs (which may raise), attach any annotation, then filter or exclude by
method type, any unrecognized method falling through to the final filter. -/
def QuerySetRule.apply (r : QuerySetRule) (qs : QS) (now : Int) : Except PyErr QS :=
  match r.filter_kwargs qs now with
  | Except.error e => Except.error e
  | Except.ok kwargs =>
    let qs2 := r.apply_any_annot qs
    if r.method_type = "filter" then Except.ok (qs2.filter kwargs)
    else if r.method_type = "exclude" then Except.ok (qs2.exclude kwargs)
    else Except.ok (qs2.filter kwargs)

/-- The structured validation failure of `QuerySetRule.clean` (Django's
`ValidationError`), carrying the formatted message built from the underlying
exception. -/
structure ValidationError where
  message : String
deriving DecidableEq

/-- `QuerySetRule.clean` (`src/drip/models.py` lines 125-131): dry-run the
rule against the sample collection and wrap ANY raised exception in a
`ValidationError` whose message names the exception type and repeats its
message.  The sample collection (`User.objects.all()` in the source) and the
clock are parameters of the embedding. -/
def QuerySetRule.clean (r : QuerySetRule) (users : QS) (now : Int) :
    Except ValidationError Unit :=
  match r.apply users now with
  | Except.ok _ => Except.ok ()
  | Except.error e =>
    Except.error ⟨e.errorName ++ " raised trying to apply rule: " ++ e.message⟩

/-- The empty sample collection used by concrete witnesses. -/
def qs0 : QS := ⟨[], []⟩

/-- A collection of three records with ages 15, 18 and 21 (spec section 8). -/
def qsAges : QS :=
  ⟨[[("age", RowVal.int 15)], [("age", RowVal.int 18)], [("age", RowVal.int 21)]], []⟩

/-- The instant 2024-01-01T00:00:00 of the fixed clock of spec section 8:
19723 days after 1970-01-01, in microseconds. -/
def now20240101 : Int := 19723 * 86400000000

/-- The character list underlying an explicitly constructed string. -/
theorem data_mk (l : List Char) : (String.mk l).data = l := rfl

/-- A list starts with any of its prefixes. -/
theorem listStartsWith_append : ∀ (a b : List Char), listStartsWith (a ++ b) a = true
  | [], _ => rfl
  | c :: a, b => by
    have ih := listStartsWith_append a b
    simp only [listStartsWith] at ih
    simp [listStartsWith, listStartsWithAux, ih]

/-- A list ends with any of its suffixes. -/
theorem listEndsWith_append (l p : List Char) : listEndsWith (l ++ p) p = true := by
  simp [listEndsWith, List.reverse_append, listStartsWith_append]

/-- Splitting `R ++ "__count"` at the last double underscore separates the
relation path `R` from the count marker, for every `R` (the suffix `count`
contains no double underscore and no occurrence can straddle the boundary). -/
theorem splitAtLast_count : ∀ (R : List Char),
    splitAtLast "__".data (R ++ "__count".data) = some (R, "count".data)
  | [] => by decide
  | c :: R => by
    have ih := splitAtLast_count R
    simp [splitAtLast, ih]

/-- Re-binding the same alias to the same aggregate is idempotent. -/
theorem setAssoc_idem (k : String) (v : Agg) : ∀ (l : List (String × Agg)),
    setAssoc k v (setAssoc k v l) = setAssoc k v l
  | [] => by simp [setAssoc]
  | (k1, v1) :: rest => by
    by_cases h : k1 = k
    · simp [setAssoc, h]
    · simp [setAssoc, h, setAssoc_idem k v rest]

/-- Stripping leading plus characters ignores any number of them. -/
theorem lstripPlus_replicate : ∀ (k : Nat) (s : List Char),
    lstripPlus (List.replicate k '+' ++ s) = lstripPlus s
  | 0, _ => rfl
  | k + 1, s => by
    rw [List.replicate_succ, List.cons_append]
    simp [lstripPlus, lstripPlus_replicate k s]

/-- Replacement is the identity on a list with no occurrence of the pattern,
for every fuel (the fuel-exhausted branch also returns the input). -/
theorem replaceAllAux_no_sub (pat repl : List Char) :
    ∀ (l : List Char) (fuel : Nat), hasSubstr pat l = false →
      replaceAllAux pat repl fuel l = l
  | l, 0, _ => by cases l <;> rfl
  | [], _ + 1, _ => rfl
  | c :: cs, fuel + 1, h => by
    simp only [hasSubstr, Bool.or_eq_false_iff] at h
    simp [replaceAllAux, h.1, replaceAllAux_no_sub pat repl cs fuel h.2]

/-- The key built by `filter_kwargs` is always the annotated field name joined
to the lookup type with a double underscore. -/
theorem filter_kwargs_key (r : QuerySetRule) (qs : QS) (now : Int)
    (kw : String × FieldValue) (h : r.filter_kwargs qs now = Except.ok kw) :
    kw.1 = r.annotated_field_name ++ "__" ++ r.lookup_type := by
  unfold QuerySetRule.filter_kwargs at h
  cases hv : r.filter_value now with
  | error e => rw [hv] at h; exact absurd h (by simp)
  | ok fv => rw [hv] at h; cases h; rfl

/-- C1: for the raw value exactly `now` (empty remainder after the prefix),
the compiled predicate value is the injected clock's current instant
unchanged — the empty remainder parses as the zero duration and no error is
raised. -/
theorem C1_now_identity (m fn lt : String) (qs : QS) (now : Int) :
    (QuerySetRule.mk m fn lt "now").filter_kwargs qs now
      = Except.ok
          ((QuerySetRule.mk m fn lt "now").annotated_field_name ++ "__" ++ lt,
            FieldValue.dt now) := by
  have h : (QuerySetRule.mk m fn lt "now").filter_kwargs qs now
      = Except.ok
          ((QuerySetRule.mk m fn lt "now").annotated_field_name ++ "__" ++ lt,
            FieldValue.dt (now + 0)) := rfl
  simpa using h

/-- C2 counterexample: on `a, b` the single (literal) parse attempt fails,
yet `parse_duration` raises nothing and silently returns Python `None`
(`Except.ok none`), a non-duration value — the comma makes the code skip both
the retry and the raise. -/
theorem C2_cex :
    django_parse_duration (lstripPlus "a, b".data) = none
      ∧ QuerySetRule.parse_duration "a, b" = Except.ok none := ⟨rfl, rfl⟩

/-- C2 (amended): for every duration string that, after stripping leading plus
characters, has no comma and fails both parse attempts (the literal string and
the string with `, 0` appended), `parse_duration` raises a `ValueError` that
surfaces to the caller. -/
theorem C2_amended (v : String)
    (h1 : django_parse_duration (lstripPlus v.data) = none)
    (hc : listContains (lstripPlus v.data) ',' = false)
    (h2 : django_parse_duration (lstripPlus v.data ++ ", 0".data) = none) :
    QuerySetRule.parse_duration v
      = Except.error
          (PyErr.valueError (String.mk ("Could not parse ".data ++ lstripPlus v.data))) := by
  simp [QuerySetRule.parse_duration, parse_duration_attempts, h1, hc, h2]

/-- C2 witness: `abc` has no comma and fails both attempts, so a `ValueError`
is raised. -/
theorem C2_w :
    QuerySetRule.parse_duration "abc"
      = Except.error
          (PyErr.valueError (String.mk ("Could not parse ".data ++ lstripPlus "abc".data))) :=
  C2_amended "abc" rfl rfl rfl


/-- C3: for a field name of the form `R ++ "__count"`, the annotation step
adds exactly one binding — the deterministic alias derived from `R` bound to a
distinct count over the relation path `R`; applying the step twice to the same
collection is idempotent (the alias is re-bound in place, no duplicate-alias
error); and the alias is the effective field name of every compiled predicate
key. -/
theorem C3_count_annot (m lt v : String) (R : List Char) (qs : QS) :
    (QuerySetRule.mk m (String.mk (R ++ "__count".data)) lt v).apply_any_annot qs
      = { qs with annotations :=
            (setAssoc (String.mk ("num_".data ++ replaceAll "__".data "_".data R))
              (Agg.countDistinct (String.mk R)) qs.annotations) }
    ∧ (QuerySetRule.mk m (String.mk (R ++ "__count".data)) lt v).apply_any_annot
        ((QuerySetRule.mk m (String.mk (R ++ "__count".data)) lt v).apply_any_annot qs)
      = (QuerySetRule.mk m (String.mk (R ++ "__count".data)) lt v).apply_any_annot qs
    ∧ ∀ (now : Int) (kw : String × FieldValue),
        (QuerySetRule.mk m (String.mk (R ++ "__count".data)) lt v).filter_kwargs qs now
          = Except.ok kw →
        kw.1 = String.mk ("num_".data ++ replaceAll "__".data "_".data R) ++ "__" ++ lt := by
  have he := listEndsWith_append R ("__count".data)
  have hs := splitAtLast_count R
  have ha : (QuerySetRule.mk m (String.mk (R ++ "__count".data)) lt v).annotated_field_name
      = String.mk ("num_".data ++ replaceAll "__".data "_".data R) := by
    simp [QuerySetRule.annotated_field_name, he, hs]
  have hGen : ∀ (q : QS),
      (QuerySetRule.mk m (String.mk (R ++ "__count".data)) lt v).apply_any_annot q
        = { q with annotations :=
              (setAssoc (String.mk ("num_".data ++ replaceAll "__".data "_".data R))
                (Agg.countDistinct (String.mk R)) q.annotations) } := by
    intro q
    simp [QuerySetRule.apply_any_annot, ha, he, hs]
  refine ⟨hGen qs, ?_, ?_⟩
  · rw [hGen qs, hGen _]
    simp [setAssoc_idem]
  · intro now kw hk
    rw [filter_kwargs_key _ qs now kw hk, ha]

/-- C3 witness: for the rule on `orders__count` with lookup `gt` and value
`0`, the compiled predicate key is the annotation alias joined to the
lookup. -/
theorem C3_w :
    (("num_orders__gt" : String), FieldValue.str "0").1
      = String.mk ("num_".data ++ replaceAll "__".data "_".data "orders".data) ++ "__" ++ "gt" :=
  (C3_count_annot "filter" "gt" "0" ("orders".data) qs0).2.2 0
    ("num_orders__gt", FieldValue.str "0") rfl

/-- C4: a rule whose method is neither `filter` nor `exclude` is treated as
INCLUDE — `apply` returns the annotated collection narrowed to the rows
satisfying the compiled predicate, raising no error. -/
theorem C4_default_include (r : QuerySetRule) (qs : QS) (now : Int)
    (kw : String × FieldValue)
    (h1 : r.method_type ≠ "filter") (h2 : r.method_type ≠ "exclude")
    (hk : r.filter_kwargs qs now = Except.ok kw) :
    r.apply qs now = Except.ok ((r.apply_any_annot qs).filter kw) := by
  simp [QuerySetRule.apply, hk, h1, h2]

/-- C4 witness: the unrecognized method `banana` filters exactly as INCLUDE
would. -/
theorem C4_w :
    (QuerySetRule.mk "banana" "age" "gte" "18").apply qsAges 0
      = Except.ok
          (((QuerySetRule.mk "banana" "age" "gte" "18").apply_any_annot qsAges).filter
            ("age__gte", FieldValue.str "18")) :=
  C4_default_include (QuerySetRule.mk "banana" "age" "gte" "18") qsAges 0
    ("age__gte", FieldValue.str "18") (by decide) (by decide) rfl

/-- C5: whenever applying the rule to the sample collection raises any
exception, `clean` raises a structured `ValidationError` whose message names
the exception type and carries its message — never the raw exception
itself. -/
theorem C5_clean_wraps (r : QuerySetRule) (users : QS) (now : Int) (e : PyErr)
    (h : r.apply users now = Except.error e) :
    r.clean users now
      = Except.error ⟨e.errorName ++ " raised trying to apply rule: " ++ e.message⟩ := by
  simp [QuerySetRule.clean, h]

/-- C5 witness: the malformed relative value `nowabc` raises inside `apply`,
and `clean` reports it as a `ValidationError` carrying the cause. -/
theorem C5_w :
    (QuerySetRule.mk "filter" "created" "lte" "nowabc").clean qs0 0
      = Except.error
          ⟨(PyErr.valueError "Could not parse abc").errorName
            ++ " raised trying to apply rule: "
            ++ (PyErr.valueError "Could not parse abc").message⟩ :=
  C5_clean_wraps (QuerySetRule.mk "filter" "created" "lte" "nowabc") qs0 0
    (PyErr.valueError "Could not parse abc") rfl

/-- C6 counterexample: for the raw value `F_F_referrer_id` the code removes
EVERY occurrence of `F_` (Python `replace`), so the deferred reference names
`referrer_id`, not the remainder `F_referrer_id` after stripping the
prefix. -/
theorem C6_cex :
    (QuerySetRule.mk "filter" "referrer" "exact" "F_F_referrer_id").filter_kwargs qs0 0
      = Except.ok ("referrer__exact", FieldValue.f "referrer_id")
    ∧ ("referrer_id" : String) ≠ "F_referrer_id" := ⟨rfl, by decide⟩

/-- C6 (amended): for every raw value beginning with `F_` whose remainder
contains no further `F_`, the compiled value is a deferred reference to the
record's own field named by the remainder — resolved against the row itself,
not a literal-string comparison. -/
theorem C6_fexpr (m fn lt : String) (rest : List Char) (qs : QS) (now : Int)
    (h : hasSubstr "F_".data rest = false) :
    (QuerySetRule.mk m fn lt (String.mk ('F' :: '_' :: rest))).filter_kwargs qs now
      = Except.ok
          ((QuerySetRule.mk m fn lt (String.mk ('F' :: '_' :: rest))).annotated_field_name
              ++ "__" ++ lt,
            FieldValue.f (String.mk rest))
    ∧ (∀ row : Row, resolveTarget row (FieldValue.f (String.mk rest)) = lookupRow row (String.mk rest))
    ∧ FieldValue.f (String.mk rest) ≠ FieldValue.str (String.mk ('F' :: '_' :: rest)) := by
  have hrep : replaceAll "F_".data [] ('F' :: '_' :: rest) = rest := by
    have h2 := replaceAllAux_no_sub ("F_".data) [] rest (rest.length + 1) h
    have hstep : replaceAll "F_".data [] ('F' :: '_' :: rest)
        = replaceAllAux "F_".data [] (rest.length + 1) rest := rfl
    rw [hstep, h2]
  refine ⟨?_, fun row => rfl, by simp⟩
  have hk : (QuerySetRule.mk m fn lt (String.mk ('F' :: '_' :: rest))).filter_kwargs qs now
      = Except.ok
          ((QuerySetRule.mk m fn lt (String.mk ('F' :: '_' :: rest))).annotated_field_name
              ++ "__" ++ lt,
            FieldValue.f (String.mk (replaceAll "F_".data [] ('F' :: '_' :: rest)))) := rfl
  rw [hrep] at hk
  exact hk

/-- C6 witness: `F_referrer_id` compiles to a deferred reference to the row's
own `referrer_id` field. -/
theorem C6_w :
    (QuerySetRule.mk "filter" "referrer" "exact"
        (String.mk ('F' :: '_' :: "referrer_id".data))).filter_kwargs qs0 0
      = Except.ok
          ((QuerySetRule.mk "filter" "referrer" "exact"
              (String.mk ('F' :: '_' :: "referrer_id".data))).annotated_field_name
              ++ "__" ++ "exact",
            FieldValue.f (String.mk "referrer_id".data))
    ∧ (∀ row : Row, resolveTarget row (FieldValue.f (String.mk "referrer_id".data))
          = lookupRow row (String.mk "referrer_id".data))
    ∧ FieldValue.f (String.mk "referrer_id".data)
        ≠ FieldValue.str (String.mk ('F' :: '_' :: "referrer_id".data)) :=
  C6_fexpr "filter" "referrer" "exact" ("referrer_id".data) qs0 0 (by decide)

/-- C7: the rule `age gte 18` with method INCLUDE applied to the ages
[15, 18, 21] keeps exactly [18, 21]; the same rule with method EXCLUDE keeps
exactly [15] — exclusion is the complement of inclusion. -/
theorem C7_age_gte :
    (QuerySetRule.mk "filter" "age" "gte" "18").apply qsAges 0
      = Except.ok ⟨[[("age", RowVal.int 18)], [("age", RowVal.int 21)]], []⟩
    ∧ (QuerySetRule.mk "exclude" "age" "gte" "18").apply qsAges 0
      = Except.ok ⟨[[("age", RowVal.int 15)]], []⟩ := ⟨rfl, rfl⟩

/-- C8 counterexample: after the plus-strip, the bare day count `3 days` is
already accepted by the FIRST (literal) parse attempt — the duration parser's
interval form admits a lone day component — so the `, 0` retry that the claim
credits is never exercised for `today+3 days`. -/
theorem C8_cex :
    django_parse_duration (lstripPlus "+3 days".data) = some 259200000000 := rfl

/-- C8 (amended): with the fixed clock at 2024-01-01T00:00:00 (day 19723),
the raw value `today+3 days` compiles to the calendar date 2024-01-04
(day 19726): the `today` prefix is stripped, the leading plus is stripped,
the bare day count `3 days` parses on the first attempt, and the duration is
added to the date projection of the clock. -/
theorem C8_today_plus3 :
    (QuerySetRule.mk "filter" "last_active" "lte" "today+3 days").filter_kwargs qs0 now20240101
      = Except.ok ("last_active__lte", FieldValue.date 19726) := rfl

/-- C9: the alias of a count field `R ++ "__count"` is exactly `num_` followed
by `R` with its double underscores collapsed to single ones; and a field name
not ending in the count marker is left unchanged, with no annotation added. -/
theorem C9_alias :
    (∀ (m lt v : String) (R : List Char),
      (QuerySetRule.mk m (String.mk (R ++ "__count".data)) lt v).annotated_field_name
        = String.mk ("num_".data ++ replaceAll "__".data "_".data R))
    ∧ (∀ (r : QuerySetRule) (qs : QS),
        listEndsWith r.field_name.data "__count".data = false →
        r.annotated_field_name = r.field_name ∧ r.apply_any_annot qs = qs) := by
  constructor
  · intro m lt v R
    have he := listEndsWith_append R ("__count".data)
    have hs := splitAtLast_count R
    simp [QuerySetRule.annotated_field_name, he, hs]
  · intro r qs h
    exact ⟨by simp [QuerySetRule.annotated_field_name, h],
      by simp [QuerySetRule.apply_any_annot, h]⟩

/-- C9 witness: `orders__count` is aliased to `num_orders`; `age` is left
unchanged and adds no annotation. -/
theorem C9_w :
    ((QuerySetRule.mk "filter" (String.mk ("orders".data ++ "__count".data)) "gt" "0").annotated_field_name
      = String.mk ("num_".data ++ replaceAll "__".data "_".data "orders".data))
    ∧ ((QuerySetRule.mk "filter" "age" "gte" "18").annotated_field_name = "age"
      ∧ (QuerySetRule.mk "filter" "age" "gte" "18").apply_any_annot qs0 = qs0) :=
  ⟨C9_alias.1 "filter" "gt" "0" ("orders".data),
    C9_alias.2 (QuerySetRule.mk "filter" "age" "gte" "18") qs0 rfl⟩

/-- C10: the duration parser strips EVERY leading plus character before
parsing — prepending any number of plus characters never changes the result
of `parse_duration`. -/
theorem C10_lstrip_all (k : Nat) (s : List Char) :
    QuerySetRule.parse_duration (String.mk (List.replicate k '+' ++ s))
      = QuerySetRule.parse_duration (String.mk s) := by
  simp [QuerySetRule.parse_duration, data_mk, lstripPlus_replicate]
